import Mathlib

/-!
Verification of the incremental build cache core (FileSystemInfo and the
Pack / PackFileCacheStrategy classes) against its specification.

The JavaScript source is shallowly embedded.  Stateful operations become
pure functions over explicit cache / pack state, each AsyncQueue is
modelled by an oracle (a pure function giving the outcome that probing a
path would deliver to the queue's waiters), and JavaScript `Map`s become
association lists with distinct keys.  JS `undefined` / `null` are
`Option.none` at the corresponding type, and the distinguished "error"
marker stored inside snapshots is `SnapVal.err`.
-/

namespace FSI

/-- Extended time value: a finite instant or `Infinity`
(the source stores `Infinity` as `safeTime` when the mtime is 0/unknown). -/
inductive XTime where
  | fin (t : Int)
  | inf
deriving DecidableEq

/-- JS comparison `x > y` where `x` is a `safeTime` (possibly `Infinity`)
and `y` may be `undefined`: any `>` comparison against `undefined` is
`false` in JS, and `Infinity` exceeds every number. -/
def xtimeGtOpt : XTime → Option Int → Bool
  | _, none => false
  | .inf, some _ => true
  | .fin s, some t => decide (t < s)

/-- `FileSystemInfoEntry` of the source: `safeTime` plus an optional raw
`timestamp` (absent for directories). -/
structure FileSystemInfoEntry where
  safeTime : XTime
  timestamp : Option Int
deriving DecidableEq

/-- A value stored in a snapshot map: either the `"error"` marker written
when a read failed while snapshotting, or the read value itself (which may
be `null`, meaning the path did not exist). -/
inductive SnapVal (α : Type) where
  | err
  | ok (v : Option α)
deriving DecidableEq

/-- JS `Map` modelled as an insertion-ordered association list; a map that
arises from actual `Map` operations never has duplicate keys. -/
abbrev JsMap (α : Type) := List (String × α)

namespace JsMap

/-- `Map.prototype.get`. -/
def lookup {α : Type} : JsMap α → String → Option α
  | [], _ => none
  | (k, v) :: rest, key => if k = key then some v else lookup rest key

/-- `Map.prototype.set`: replace the value of an existing key in place,
otherwise append the new pair. -/
def setKV {α : Type} : JsMap α → String → α → JsMap α
  | [], key, val => [(key, val)]
  | (k, v) :: rest, key, val =>
    if k = key then (key, val) :: rest else (k, v) :: setKV rest key val

/-- The keys of a map, in insertion order. -/
def keys {α : Type} (m : JsMap α) : List String := m.map Prod.fst

/-- `new Map(a)` followed by `for ([k, v] of b) map.set(k, v)` — the body of
the source's `mergeMaps` after its emptiness test. -/
def unionMaps {α : Type} (a b : JsMap α) : JsMap α :=
  b.foldl (fun m kv => setKV m kv.1 kv.2) a

end JsMap

/-! ## Accuracy estimator (`FS_ACCURACY` / `applyMtime`) -/

/-- Initial value of the process-wide `FS_ACCURACY` variable. -/
def initFsAccuracy : Nat := 2000

/-- One observation step of the accuracy estimator: the source's
`applyMtime`, with the mutable `FS_ACCURACY` made an explicit argument
and result. -/
def applyMtime (acc : Nat) (mtime : Nat) : Nat :=
  if acc > 1 ∧ mtime % 2 ≠ 0 then 1
  else if acc > 10 ∧ mtime % 20 ≠ 0 then 10
  else if acc > 100 ∧ mtime % 200 ≠ 0 then 100
  else if acc > 1000 ∧ mtime % 2000 ≠ 0 then 1000
  else acc

/-- `FS_ACCURACY` after the estimator has processed a sequence of mtimes,
starting from its initial value. -/
def accuracyAfter (ms : List Nat) : Nat := ms.foldl applyMtime initFsAccuracy

/-- The set of values `FS_ACCURACY` may take. -/
def accMember (a : Nat) : Prop := a = 1 ∨ a = 10 ∨ a = 100 ∨ a = 1000 ∨ a = 2000

instance (a : Nat) : Decidable (accMember a) := by unfold accMember; infer_instance

/-! ## Managed items -/

/-- Character-level model of JS `String.prototype.startsWith` (first
argument: the string, second: the candidate leading part). -/
def strStartsWith (s pre : String) : Bool :=
  go s.toList pre.toList
where
  go : List Char → List Char → Bool
    | _, [] => true
    | [], _ :: _ => false
    | a :: as, b :: bs => a = b && go as bs

/-- The scanning loop of the source's `getManagedItem`: starting after the
managed root, count boundary separators down from 2 (each `@` counts the
target up by one) and return the index of the separator that brings the
count to zero, or the length of the remainder if the count never reaches
zero.  Mirrors `while (i < remaining.length) switch (charCodeAt(i)) ...`.  -/
def managedItemScan : List Char → Nat → Nat
  | [], _ => 0
  | c :: rest, slashes =>
    if c = '/' ∨ c = '\\' then
      if slashes = 1 then 0 else 1 + managedItemScan rest (slashes - 1)
    else if c = '@' then 1 + managedItemScan rest (slashes + 1)
    else 1 + managedItemScan rest slashes

/-- The source's `getManagedItem(managedPath, path)`:
`path.slice(0, managedPath.length + i)` with `i` produced by the scan. -/
def getManagedItem (managedPath path : String) : String :=
  let pl := path.toList
  let remaining := pl.drop managedPath.toList.length
  ⟨pl.take (managedPath.toList.length + managedItemScan remaining 2)⟩

/-- The first managed root (already suffixed with a separator, as in
`managedPathsWithSlash`) that the path starts with, mapped to its managed
item; `none` when the path is beneath no managed root.  This is the inner
`for (const managedPath of this.managedPathsWithSlash)` loop of
`createSnapshot`. -/
def managedOf (mps : List String) (path : String) : Option String :=
  match mps.find? (fun mp => strStartsWith path mp) with
  | some mp => some (getManagedItem mp path)
  | none => none

/-- `join(fs, p, "_").slice(0, -1)`: a managed root suffixed with a
separator, as precomputed into `managedPathsWithSlash` (posix join). -/
def withSlash (p : String) : String := p ++ "/"

/-! ## Caches, queue oracles, and the read processors -/

/-- The mutable per-path caches of a `FileSystemInfo` instance.  A stored
`none` is a positive cached absence (`null`), distinct from a missing key. -/
structure Caches where
  fileTimestamps : JsMap (Option FileSystemInfoEntry)
  fileHashes : JsMap (Option String)
  contextHashes : JsMap (Option String)
  managedItems : JsMap String
deriving DecidableEq

/-- Outcomes the AsyncQueues can deliver to waiters, one pure function per
queue: `Except.error ()` is a read error propagated by the processor,
`Except.ok` the processed value (`none` = the path did not exist). -/
structure Oracle where
  fileTimestamp : String → Except Unit (Option FileSystemInfoEntry)
  fileHash : String → Except Unit (Option String)
  contextHash : String → Except Unit (Option String)
  managedItem : String → Except Unit String

/-- Outcome of one `fs.stat` call, as consumed by `_readFileTimestamp`. -/
inductive StatOutcome where
  | enoent
  | failure
  | stat (mtime : Nat) (isDir : Bool)

/-- The source's `_readFileTimestamp` processor, with the cache, the
accuracy variable, and the single `fs.stat` outcome explicit.  Returns the
updated accuracy, the updated cache, and what the callback receives. -/
def readFileTimestampStep (acc : Nat) (cache : JsMap (Option FileSystemInfoEntry))
    (path : String) (st : StatOutcome) :
    Nat × JsMap (Option FileSystemInfoEntry) × Except Unit (Option FileSystemInfoEntry) :=
  match st with
  | .enoent => (acc, JsMap.setKV cache path none, .ok none)
  | .failure => (acc, cache, .error ())
  | .stat mtime isDir =>
    let acc2 := if mtime ≠ 0 then applyMtime acc mtime else acc
    let ts : FileSystemInfoEntry :=
      { safeTime := if mtime ≠ 0 then .fin ((mtime : Int) + (acc2 : Int)) else .inf
        timestamp := if isDir then none else some (mtime : Int) }
    (acc2, JsMap.setKV cache path (some ts), .ok (some ts))

/-- Outcome of one `fs.readFile` call as consumed by `_readFileHash`; a
successful read is represented by the digest of its content (the hashing
primitive is an external collaborator). -/
inductive ReadOutcome where
  | enoent
  | failure
  | content (digest : String)

/-- The source's `_readFileHash` processor with cache and the single
`fs.readFile` outcome explicit. -/
def readFileHashStep (cache : JsMap (Option String)) (path : String)
    (rd : ReadOutcome) : JsMap (Option String) × Except Unit (Option String) :=
  match rd with
  | .enoent => (JsMap.setKV cache path none, .ok none)
  | .failure => (cache, .error ())
  | .content digest => (JsMap.setKV cache path (some digest), .ok (some digest))

/-! ## Snapshots and `createSnapshot` -/

/-- A snapshot: six optional maps plus an optional `startTime`.  A field
that is `none` is absent from the JS object. -/
structure Snapshot where
  startTime : Option Int
  fileTimestamps : Option (JsMap (SnapVal FileSystemInfoEntry))
  fileHashes : Option (JsMap (SnapVal String))
  contextTimestamps : Option (JsMap (SnapVal FileSystemInfoEntry))
  contextHashes : Option (JsMap (SnapVal String))
  missingTimestamps : Option (JsMap (SnapVal FileSystemInfoEntry))
  managedItemInfo : Option (JsMap (SnapVal String))
deriving DecidableEq

/-- `createSnapshot` option bag (`options && options.hash`). -/
structure SnapOptions where
  hash : Bool
deriving DecidableEq

/-- A built map is attached to the snapshot only when non-empty
(`if (map.size !== 0) snapshot.field = map`). -/
def optOfMap {α : Type} (m : JsMap α) : Option (JsMap α) :=
  if m.isEmpty then none else some m

/-- Value stored for a file path in timestamp mode (and for a missing
path): the `_fileTimestamps` cache hit, else the file-timestamp queue's
outcome, errors becoming the `"error"` marker. -/
def snapFileTsEntry (c : Caches) (o : Oracle) (p : String) :
    SnapVal FileSystemInfoEntry :=
  match JsMap.lookup c.fileTimestamps p with
  | some v => .ok v
  | none =>
    match o.fileTimestamp p with
    | .error _ => .err
    | .ok v => .ok v

/-- Value stored for a file path in hash mode. -/
def snapFileHashEntry (c : Caches) (o : Oracle) (p : String) : SnapVal String :=
  match JsMap.lookup c.fileHashes p with
  | some v => .ok v
  | none =>
    match o.fileHash p with
    | .error _ => .err
    | .ok v => .ok v

/-- Value stored for a directory path in hash mode. -/
def snapContextHashEntry (c : Caches) (o : Oracle) (p : String) : SnapVal String :=
  match JsMap.lookup c.contextHashes p with
  | some v => .ok v
  | none =>
    match o.contextHash p with
    | .error _ => .err
    | .ok v => .ok v

/-- Value stored for a managed item: the `_managedItems` cache hit, else
the managed-item queue's outcome. -/
def snapManagedEntry (c : Caches) (o : Oracle) (p : String) : SnapVal String :=
  match JsMap.lookup c.managedItems p with
  | some v => .ok (some v)
  | none =>
    match o.managedItem p with
    | .error _ => .err
    | .ok v => .ok (some v)

/-- One `createSnapshot` input loop: skip paths beneath a managed root,
record `f p` for the rest (`fileTimestamps.set(path, ...)` etc.). -/
def snapCollect {α : Type} (mps : List String) (f : String → α) :
    List String → JsMap α → JsMap α
  | [], m => m
  | p :: rest, m =>
    snapCollect mps f rest
      (if (managedOf mps p).isSome then m else JsMap.setKV m p (f p))

/-- Insertion into the JS `Set` of managed items (append if new). -/
def insertSet (l : List String) (x : String) : List String :=
  if x ∈ l then l else l ++ [x]

/-- The managed items collected while walking the input paths, starting
from an already collected set. -/
def managedCollect (mps : List String) : List String → List String → List String
  | [], s => s
  | p :: rest, s =>
    managedCollect mps rest
      (match managedOf mps p with
       | some item => insertSet s item
       | none => s)

/-- The deduplicated managed items collected while walking the inputs. -/
def managedItemsOf (mps : List String) (paths : List String) : List String :=
  managedCollect mps paths []

/-- The map keyed by a list of keys with values given by `f` (the final
`for (const path of managedItems)` loop). -/
def mapOfList {α : Type} (f : String → α) : List String → JsMap α → JsMap α
  | [], m => m
  | k :: rest, m => mapOfList f rest (JsMap.setKV m k (f k))

/-- The source's `createSnapshot(startTime, files, directories, missing,
options, callback)`, with all queue outcomes supplied by the oracle; `mps`
is `managedPathsWithSlash`.  In timestamp mode a non-managed directory is
recorded as the `"error"` marker (`getContextTimestamp` is not implemented
yet); `startTime` is attached only when truthy. -/
def createSnapshot (c : Caches) (o : Oracle) (mps : List String)
    (startTime : Option Int) (files directories missing : List String)
    (options : SnapOptions) : Snapshot :=
  let fileTimestamps :=
    if options.hash then [] else snapCollect mps (snapFileTsEntry c o) files []
  let fileHashes :=
    if options.hash then snapCollect mps (snapFileHashEntry c o) files [] else []
  let contextTimestamps :=
    if options.hash then []
    else snapCollect mps (fun _ => SnapVal.err) directories []
  let contextHashes :=
    if options.hash then snapCollect mps (snapContextHashEntry c o) directories [] else []
  let missingTimestamps := snapCollect mps (snapFileTsEntry c o) missing []
  let managedItemInfo :=
    mapOfList (snapManagedEntry c o) (managedItemsOf mps (files ++ directories ++ missing)) []
  { startTime :=
      match startTime with
      | some t => if t = 0 then none else some t
      | none => none
    fileTimestamps := optOfMap fileTimestamps
    fileHashes := optOfMap fileHashes
    contextTimestamps := optOfMap contextTimestamps
    contextHashes := optOfMap contextHashes
    missingTimestamps := optOfMap missingTimestamps
    managedItemInfo := optOfMap managedItemInfo }

/-- `storeBuildDependencies` snapshots the resolved build dependencies
with `createSnapshot(undefined, files, directories, missing,
{ hash: true }, ...)`. -/
def storeBuildDependenciesSnapshot (c : Caches) (o : Oracle) (mps : List String)
    (files directories missing : List String) : Snapshot :=
  createSnapshot c o mps none files directories missing ⟨true⟩

/-! ## `mergeSnapshots` -/

/-- The source's `mergeMaps(a, b)`.  Each argument is the (possibly
absent) map of one snapshot.  The very first statement reads `b.size`, so
`b === undefined` throws a TypeError, modelled as `Except.error ()`;
`new Map(a)` with `a === undefined` is an empty map. -/
def mergeMaps {α : Type} (a b : Option (JsMap α)) : Except Unit (Option (JsMap α)) :=
  match b with
  | none => .error ()
  | some bm =>
    if bm.isEmpty then .ok a
    else .ok (some (JsMap.unionMaps (a.getD []) bm))

/-- Per-field merge: `mergeMaps` is invoked only under the guard
`if (snapshot1.field || snapshot2.field)` (an empty map is truthy). -/
def mergeField {α : Type} (a b : Option (JsMap α)) : Except Unit (Option (JsMap α)) :=
  if a.isSome || b.isSome then mergeMaps a b else .ok none

/-- JS truthiness of an optional number (`0` is falsy). -/
def jsNumTruthy : Option Int → Bool
  | none => false
  | some t => decide (t ≠ 0)

/-- The `startTime` selection chain at the top of `mergeSnapshots`. -/
def mergeStartTime (t1 t2 : Option Int) : Option Int :=
  if jsNumTruthy t1 && jsNumTruthy t2 then some (min (t1.getD 0) (t2.getD 0))
  else if jsNumTruthy t2 then t2
  else if jsNumTruthy t1 then t1
  else none

/-- The source's `mergeSnapshots(snapshot1, snapshot2)`.  A thrown
TypeError from `mergeMaps` (only `snapshot1` carries a given map)
propagates out of the whole call, field by field in source order. -/
def mergeSnapshots (s1 s2 : Snapshot) : Except Unit Snapshot :=
  match mergeField s1.fileTimestamps s2.fileTimestamps with
  | .error e => .error e
  | .ok ft =>
  match mergeField s1.fileHashes s2.fileHashes with
  | .error e => .error e
  | .ok fh =>
  match mergeField s1.contextTimestamps s2.contextTimestamps with
  | .error e => .error e
  | .ok ct =>
  match mergeField s1.contextHashes s2.contextHashes with
  | .error e => .error e
  | .ok ch =>
  match mergeField s1.missingTimestamps s2.missingTimestamps with
  | .error e => .error e
  | .ok mt =>
  match mergeField s1.managedItemInfo s2.managedItemInfo with
  | .error e => .error e
  | .ok mi =>
    .ok
      { startTime := mergeStartTime s1.startTime s2.startTime
        fileTimestamps := ft
        fileHashes := fh
        contextTimestamps := ct
        contextHashes := ch
        missingTimestamps := mt
        managedItemInfo := mi }

/-! ## `checkSnapshotValid` -/

/-- The freshness condition of `checkFile`:
`current && current.safeTime > startTime`. -/
def safeTimeCond (startTime : Option Int)
    (current : Option FileSystemInfoEntry) : Bool :=
  match current with
  | some c => xtimeGtOpt c.safeTime startTime
  | none => false

/-- The timestamp condition of `checkFile`: for an existing current item,
`snap.timestamp !== undefined && current.timestamp !== snap.timestamp`
(the source only evaluates it under `if (current)`). -/
def timestampCond (current snapEntry : Option FileSystemInfoEntry) : Bool :=
  match current, snapEntry with
  | some c, some s => s.timestamp.isSome && decide (c.timestamp ≠ s.timestamp)
  | _, _ => false

/-- The `checkFile(current, snap)` predicate of `checkSnapshotValid`,
transcribed from the source: the `"error"` marker is invalid; a current
entry whose `safeTime` exceeds `startTime` is invalid (a `>` comparison
against an absent `startTime` is false); differing existence is invalid;
and for existing entries a defined snapshot timestamp that differs from
the current one is invalid. -/
def checkFile (startTime : Option Int) (current : Option FileSystemInfoEntry)
    (snap : SnapVal FileSystemInfoEntry) : Bool :=
  match snap with
  | .err => false
  | .ok snapEntry =>
    if safeTimeCond startTime current then false
    else if current.isSome != snapEntry.isSome then false
    else if timestampCond current snapEntry then false
    else true

/-- The `checkHash(current, snap)` predicate: `"error"` is invalid, else
strict equality. -/
def checkHash (current : Option String) (snap : SnapVal String) : Bool :=
  match snap with
  | .err => false
  | .ok s => decide (current = s)

/-- The `checkExistance(current, snap)` predicate: `"error"` is invalid,
else equality of existence. -/
def checkExistance (current : Option FileSystemInfoEntry)
    (snap : SnapVal FileSystemInfoEntry) : Bool :=
  match snap with
  | .err => false
  | .ok s => current.isSome == s.isSome

/-- The current fact for a file-timestamp probe: the `_fileTimestamps`
cache hit, else the outcome the file-timestamp queue delivers. -/
def currentFileTs (c : Caches) (o : Oracle) (p : String) :
    Except Unit (Option FileSystemInfoEntry) :=
  match JsMap.lookup c.fileTimestamps p with
  | some v => .ok v
  | none => o.fileTimestamp p

/-- The current fact for a file-hash probe. -/
def currentFileHash (c : Caches) (o : Oracle) (p : String) :
    Except Unit (Option String) :=
  match JsMap.lookup c.fileHashes p with
  | some v => .ok v
  | none => o.fileHash p

/-- The current fact for a context-hash probe. -/
def currentContextHash (c : Caches) (o : Oracle) (p : String) :
    Except Unit (Option String) :=
  match JsMap.lookup c.contextHashes p with
  | some v => .ok v
  | none => o.contextHash p

/-- Validation of the entries of one snapshot map: each entry's current
fact is fetched (cache or queue); a read error makes the check fail
(`if (err) return invalid()`), otherwise the per-entry predicate decides. -/
def checkEntries {α : Type} (get : String → Except Unit (Option α))
    (check : Option α → SnapVal α → Bool) (m : JsMap (SnapVal α)) : Bool :=
  m.all fun pv =>
    match get pv.1 with
    | .error _ => false
    | .ok cur => check cur pv.2

/-- The source's `checkSnapshotValid(snapshot, callback)`.  The callback
is always invoked as `callback(null, result)` — every error path goes
through `invalid()` — so the model returns the boolean result directly.
A non-empty `contextTimestamps` map is unconditionally invalid. -/
def checkSnapshotValid (c : Caches) (o : Oracle) (s : Snapshot) : Bool :=
  checkEntries (currentFileTs c o) (checkFile s.startTime) (s.fileTimestamps.getD [])
    && checkEntries (currentFileHash c o) checkHash (s.fileHashes.getD [])
    && (s.contextTimestamps.getD []).isEmpty
    && checkEntries (currentContextHash c o) checkHash (s.contextHashes.getD [])
    && checkEntries (currentFileTs c o) checkExistance (s.missingTimestamps.getD [])

/-! ## Pack (`_unpack` migration policy) -/

/-- `MAX_INLINE_SIZE` of `PackFileCacheStrategy`. -/
def MAX_INLINE_SIZE : Nat := 20000

/-- Cached payloads are opaque to the pack logic; they are modelled as
numeric tokens. -/
abbrev PackData := Nat

/-- A deserialized `PackEntry`: its payload (`none` when the serializer
wrote the "no data" flag) and its measured byte size. -/
structure PackEntryData where
  data : Option PackData
  size : Nat
deriving DecidableEq

/-- A value of the pack's `content` map: realized data or a lazy loader
(modelled by the entry the loader resolves to). -/
inductive ContentVal where
  | plain (d : PackData)
  | lazy (e : PackEntryData)
deriving DecidableEq

/-- The fields of a `Pack` that `_unpack` reads or writes. -/
structure Pack where
  content : JsMap ContentVal
  lastSizes : JsMap Nat
  unserializable : List String
  invalid : Bool
deriving DecidableEq

/-- The source's `Pack._unpack(identifier, entry, currentlyInline)`:
entries without data become unserializable; otherwise the measured size
is remembered and the inline/lazy migration policy may mark the pack
invalid, splicing realized data back into `content` in the lazy-to-inline
case.  Returns the updated pack and the returned data. -/
def unpackEntry (p : Pack) (identifier : String) (entry : PackEntryData)
    (currentlyInline : Bool) : Pack × Option PackData :=
  match entry.data with
  | none =>
    ({ p with
        unserializable := insertSet p.unserializable identifier
        lastSizes := p.lastSizes.filter (fun kv => kv.1 ≠ identifier) }, none)
  | some d =>
    let p1 := { p with lastSizes := JsMap.setKV p.lastSizes identifier entry.size }
    if currentlyInline then
      if entry.size > MAX_INLINE_SIZE then
        ({ p1 with invalid := true }, some d)
      else (p1, some d)
    else
      if entry.size ≤ MAX_INLINE_SIZE then
        ({ p1 with
            invalid := true
            content := JsMap.setKV p1.content identifier (.plain d) }, some d)
      else (p1, some d)

/-! ## Spec-side predicates (transcribed from the specification text, for
comparison with the source-derived definitions) -/

/-- Truthiness of the snapshot-side value in `checkFile`'s existence test
(an entry object and the `"error"` string are truthy, `null` is falsy). -/
def snapTruthy {α : Type} : SnapVal α → Bool
  | .err => true
  | .ok v => v.isSome

/-- Whether both sides exist with a defined snapshot timestamp differing
from the current one. -/
def timestampMismatch (current : Option FileSystemInfoEntry)
    (snap : SnapVal FileSystemInfoEntry) : Bool :=
  match snap with
  | .err => false
  | .ok sv => timestampCond current sv

/-- The specification's wording of `checkFile(current, snap)`: invalid if
`snap == ERROR`; invalid if the current entry exists and
`current.safeTime > snapshot.startTime`; invalid if exactly one of the
two values is `None`; invalid if both exist and `snap.timestamp` is
defined and differs from `current.timestamp`; valid in every other
case. -/
def checkFileSpec (startTime : Option Int) (current : Option FileSystemInfoEntry)
    (snap : SnapVal FileSystemInfoEntry) : Bool :=
  !(decide (snap = .err)
    || safeTimeCond startTime current
    || (current.isSome != snapTruthy snap)
    || timestampMismatch current snap)

/-- `checkFile` restricted to the existence and timestamp-equality tests
— what is left of it once the freshness (`safeTime`) condition can never
fire. -/
def checkFileNoFreshness (current : Option FileSystemInfoEntry)
    (snap : SnapVal FileSystemInfoEntry) : Bool :=
  match snap with
  | .err => false
  | .ok snapEntry =>
    if current.isSome != snapEntry.isSome then false
    else if timestampCond current snapEntry then false
    else true

/-! ## Well-formedness and observational equivalence of snapshots -/

/-- A (possibly absent) snapshot map is representable as a JS `Map` iff
its keys are duplicate-free. -/
def mapWF {α : Type} : Option (JsMap α) → Prop
  | none => True
  | some m => (JsMap.keys m).Nodup

instance {α : Type} (m : Option (JsMap α)) : Decidable (mapWF m) := by
  cases m <;> simp only [mapWF] <;> infer_instance

/-- A snapshot representable as a JS value: duplicate-free map keys, and
a `startTime` that is not the falsy number `0` (no code path ever stores
`startTime: 0` — `createSnapshot` guards with `if (startTime)`). -/
def snapshotWF (s : Snapshot) : Prop :=
  s.startTime ≠ some 0
  ∧ mapWF s.fileTimestamps ∧ mapWF s.fileHashes ∧ mapWF s.contextTimestamps
  ∧ mapWF s.contextHashes ∧ mapWF s.missingTimestamps ∧ mapWF s.managedItemInfo

instance (s : Snapshot) : Decidable (snapshotWF s) := by
  unfold snapshotWF; infer_instance

/-- Observational equality of two optional JS maps: same presence and the
same value at every key (iteration order is not observed). -/
def optMapEquiv {α : Type} (a b : Option (JsMap α)) : Prop :=
  a.isSome = b.isSome
  ∧ ∀ k, JsMap.lookup (a.getD []) k = JsMap.lookup (b.getD []) k

/-- Observational equality of snapshots. -/
def snapshotEquiv (s t : Snapshot) : Prop :=
  s.startTime = t.startTime
  ∧ optMapEquiv s.fileTimestamps t.fileTimestamps
  ∧ optMapEquiv s.fileHashes t.fileHashes
  ∧ optMapEquiv s.contextTimestamps t.contextTimestamps
  ∧ optMapEquiv s.contextHashes t.contextHashes
  ∧ optMapEquiv s.missingTimestamps t.missingTimestamps
  ∧ optMapEquiv s.managedItemInfo t.managedItemInfo

/-- Each of the six maps is present on both snapshots or on neither. -/
def sameShape (a b : Snapshot) : Prop :=
  a.fileTimestamps.isSome = b.fileTimestamps.isSome
  ∧ a.fileHashes.isSome = b.fileHashes.isSome
  ∧ a.contextTimestamps.isSome = b.contextTimestamps.isSome
  ∧ a.contextHashes.isSome = b.contextHashes.isSome
  ∧ a.missingTimestamps.isSome = b.missingTimestamps.isSome
  ∧ a.managedItemInfo.isSome = b.managedItemInfo.isSome

/-- The key sets of two optional maps are disjoint. -/
def keysDisjoint {α : Type} (a b : Option (JsMap α)) : Prop :=
  ∀ k, k ∈ JsMap.keys (a.getD []) → k ∉ JsMap.keys (b.getD [])

/-- All six map fields of the two snapshots have disjoint key sets. -/
def disjointSnapshots (a b : Snapshot) : Prop :=
  keysDisjoint a.fileTimestamps b.fileTimestamps
  ∧ keysDisjoint a.fileHashes b.fileHashes
  ∧ keysDisjoint a.contextTimestamps b.contextTimestamps
  ∧ keysDisjoint a.contextHashes b.contextHashes
  ∧ keysDisjoint a.missingTimestamps b.missingTimestamps
  ∧ keysDisjoint a.managedItemInfo b.managedItemInfo

/-! ## Helper lemmas about the embedding -/

namespace JsMap

theorem lookup_eq_none_of_not_mem_keys {α : Type} {m : JsMap α} {k : String}
    (h : k ∉ keys m) : lookup m k = none := by
  induction m with
  | nil => rfl
  | cons p rest ih =>
    simp only [keys, List.map_cons, List.mem_cons, not_or] at h
    simp only [lookup]
    rw [if_neg (fun he => h.1 he.symm), ih (by simpa [keys] using h.2)]

theorem lookup_setKV_self {α : Type} (m : JsMap α) (k : String) (v : α) :
    lookup (setKV m k v) k = some v := by
  induction m with
  | nil => simp [setKV, lookup]
  | cons p rest ih =>
    by_cases h : p.1 = k
    · simp [setKV, h, lookup]
    · simp [setKV, h, lookup, ih]

theorem lookup_setKV_ne {α : Type} (m : JsMap α) {k k' : String} (v : α)
    (h : k ≠ k') : lookup (setKV m k v) k' = lookup m k' := by
  induction m with
  | nil => simp [setKV, lookup, h]
  | cons p rest ih =>
    by_cases hp : p.1 = k
    · simp [setKV, hp, lookup, h]
    · simp only [setKV, if_neg hp, lookup]
      by_cases hp' : p.1 = k'
      · simp [hp']
      · simp [hp', ih]

theorem mem_keys_setKV {α : Type} (m : JsMap α) (k k' : String) (v : α) :
    k' ∈ keys (setKV m k v) ↔ k' ∈ keys m ∨ k' = k := by
  induction m with
  | nil => simp [setKV, keys]
  | cons p rest ih =>
    by_cases hp : p.1 = k
    · simp only [setKV, if_pos hp, keys, List.map_cons, List.mem_cons]
      simp only [keys] at *
      rw [hp]
      tauto
    · simp only [setKV, if_neg hp, keys, List.map_cons, List.mem_cons]
      simp only [keys] at ih
      rw [ih]
      tauto

theorem keys_nodup_setKV {α : Type} {m : JsMap α} (k : String) (v : α)
    (h : (keys m).Nodup) : (keys (setKV m k v)).Nodup := by
  induction m with
  | nil => simp [setKV, keys]
  | cons p rest ih =>
    simp only [keys, List.map_cons, List.nodup_cons] at h
    by_cases hp : p.1 = k
    · simp only [setKV, if_pos hp, keys, List.map_cons, List.nodup_cons]
      refine ⟨fun hc => h.1 ?_, h.2⟩
      rwa [hp]
    · simp only [setKV, if_neg hp, keys, List.map_cons, List.nodup_cons]
      refine ⟨fun hc => ?_, ih h.2⟩
      rcases (mem_keys_setKV rest k p.1 v).mp (by simpa [keys] using hc) with h' | h'
      · exact h.1 (by simpa [keys] using h')
      · exact hp h'

theorem setKV_eq_of_mem {α : Type} {m : JsMap α} {k : String} {v : α}
    (hnd : (keys m).Nodup) (hmem : (k, v) ∈ m) : setKV m k v = m := by
  induction m with
  | nil => cases hmem
  | cons p rest ih =>
    simp only [keys, List.map_cons, List.nodup_cons] at hnd
    by_cases hp : p.1 = k
    · rcases List.mem_cons.mp hmem with h | h
      · simp [setKV, hp, ← h]
      · exact absurd (hp ▸ List.mem_map_of_mem Prod.fst h) hnd.1
    · have hmem' : (k, v) ∈ rest := by
        rcases List.mem_cons.mp hmem with h | h
        · exact absurd (congrArg Prod.fst h).symm hp
        · exact h
      simp [setKV, hp, ih hnd.2 hmem']

theorem foldl_setKV_of_mem {α : Type} (m : JsMap α) (hnd : (keys m).Nodup) :
    ∀ l : List (String × α), (∀ p ∈ l, p ∈ m) →
      l.foldl (fun acc kv => setKV acc kv.1 kv.2) m = m := by
  intro l
  induction l with
  | nil => intro _; rfl
  | cons p rest ih =>
    intro h
    have h1 : setKV m p.1 p.2 = m := setKV_eq_of_mem hnd (h p (by simp))
    simp only [List.foldl_cons, h1]
    exact ih (fun q hq => h q (by simp [hq]))

theorem unionMaps_self {α : Type} (m : JsMap α) (hnd : (keys m).Nodup) :
    unionMaps m m = m :=
  foldl_setKV_of_mem m hnd m (fun _ hp => hp)

theorem lookup_unionMaps {α : Type} (b : JsMap α) (hnd : (keys b).Nodup) :
    ∀ (a : JsMap α) (k : String),
      lookup (unionMaps a b) k =
        match lookup b k with
        | some v => some v
        | none => lookup a k := by
  induction b with
  | nil => intro a k; rfl
  | cons p rest ih =>
    intro a k
    simp only [keys, List.map_cons, List.nodup_cons] at hnd
    show lookup (unionMaps (setKV a p.1 p.2) rest) k = _
    rw [ih hnd.2]
    by_cases hk : p.1 = k
    · subst hk
      have : lookup rest p.1 = none :=
        lookup_eq_none_of_not_mem_keys hnd.1
      simp [lookup, this, lookup_setKV_self]
    · simp [lookup, hk, lookup_setKV_ne a p.2 hk]

end JsMap


theorem mem_keys_of_lookup_eq_some {α : Type} {m : JsMap α} {k : String} {v : α}
    (h : JsMap.lookup m k = some v) : k ∈ JsMap.keys m := by
  induction m with
  | nil => cases h
  | cons p rest ih =>
    simp only [JsMap.lookup] at h
    by_cases hp : p.1 = k
    · simp [JsMap.keys, hp.symm]
    · rw [if_neg hp] at h
      simp [JsMap.keys] at ih ⊢
      exact Or.inr (by simpa [JsMap.keys] using ih h)

theorem lookup_snapCollect_of_lookup {α : Type} (mps : List String) (f : String → α)
    (p : String) :
    ∀ (l : List String) (init : JsMap α), JsMap.lookup init p = some (f p) →
      JsMap.lookup (snapCollect mps f l init) p = some (f p) := by
  intro l
  induction l with
  | nil => intro init h; exact h
  | cons q rest ih =>
    intro init h
    show JsMap.lookup (snapCollect mps f rest _) p = _
    apply ih
    by_cases hq : (managedOf mps q).isSome
    · rwa [if_pos hq]
    · rw [if_neg hq]
      by_cases hpq : q = p
      · subst hpq; rw [JsMap.lookup_setKV_self]
      · rwa [JsMap.lookup_setKV_ne _ _ hpq]

theorem lookup_snapCollect_mem {α : Type} (mps : List String) (f : String → α)
    (p : String) (hman : managedOf mps p = none) :
    ∀ (l : List String) (init : JsMap α), p ∈ l →
      JsMap.lookup (snapCollect mps f l init) p = some (f p) := by
  intro l
  induction l with
  | nil => intro _ h; cases h
  | cons q rest ih =>
    intro init hmem
    by_cases hpq : p = q
    · subst hpq
      show JsMap.lookup (snapCollect mps f rest _) p = _
      rw [hman]
      simp only [Option.isSome_none, Bool.false_eq_true, if_false]
      exact lookup_snapCollect_of_lookup mps f p rest _ (JsMap.lookup_setKV_self _ _ _)
    · rcases List.mem_cons.mp hmem with h | h
      · exact absurd h hpq
      · exact ih _ h

theorem lookup_snapCollect_managed {α : Type} (mps : List String) (f : String → α)
    (p : String) (hman : (managedOf mps p).isSome) :
    ∀ (l : List String) (init : JsMap α),
      JsMap.lookup (snapCollect mps f l init) p = JsMap.lookup init p := by
  intro l
  induction l with
  | nil => intro _; rfl
  | cons q rest ih =>
    intro init
    show JsMap.lookup (snapCollect mps f rest _) p = _
    by_cases hq : (managedOf mps q).isSome
    · rw [if_pos hq]; exact ih init
    · rw [if_neg hq, ih _]
      apply JsMap.lookup_setKV_ne
      intro he
      subst he
      exact hq hman

theorem mem_insertSet_self (l : List String) (x : String) : x ∈ insertSet l x := by
  unfold insertSet
  by_cases h : x ∈ l
  · rwa [if_pos h]
  · rw [if_neg h]; simp

theorem mem_insertSet_of_mem (l : List String) (x y : String) (h : y ∈ l) :
    y ∈ insertSet l x := by
  unfold insertSet
  by_cases hx : x ∈ l
  · rwa [if_pos hx]
  · rw [if_neg hx]; simp [h]

theorem insertSet_nodup {l : List String} (x : String) (h : l.Nodup) :
    (insertSet l x).Nodup := by
  unfold insertSet
  by_cases hx : x ∈ l
  · rwa [if_pos hx]
  · rw [if_neg hx]
    rw [List.nodup_append]
    refine ⟨h, List.nodup_singleton x, ?_⟩
    intro a ha hax
    rw [List.mem_singleton] at hax
    exact hx (hax ▸ ha)

theorem mem_managedCollect_of_mem (mps : List String) (y : String) :
    ∀ (l : List String) (s : List String), y ∈ s → y ∈ managedCollect mps l s := by
  intro l
  induction l with
  | nil => intro s h; exact h
  | cons q rest ih =>
    intro s h
    show y ∈ managedCollect mps rest _
    apply ih
    cases hq : managedOf mps q with
    | none => simpa [hq] using h
    | some item => simpa [hq] using mem_insertSet_of_mem s item y h

theorem mem_managedCollect (mps : List String) (p item : String)
    (hman : managedOf mps p = some item) :
    ∀ (l : List String) (s : List String), p ∈ l → item ∈ managedCollect mps l s := by
  intro l
  induction l with
  | nil => intro _ h; cases h
  | cons q rest ih =>
    intro s hmem
    by_cases hpq : p = q
    · subst hpq
      show item ∈ managedCollect mps rest _
      apply mem_managedCollect_of_mem
      rw [hman]
      exact mem_insertSet_self s item
    · rcases List.mem_cons.mp hmem with h | h
      · exact absurd h hpq
      · exact ih _ h

theorem managedCollect_nodup (mps : List String) :
    ∀ (l : List String) (s : List String), s.Nodup → (managedCollect mps l s).Nodup := by
  intro l
  induction l with
  | nil => intro s h; exact h
  | cons q rest ih =>
    intro s h
    show (managedCollect mps rest _).Nodup
    apply ih
    cases hq : managedOf mps q with
    | none => simpa [hq] using h
    | some item => simpa [hq] using insertSet_nodup item h

theorem lookup_mapOfList_of_lookup {α : Type} (f : String → α) (k : String) :
    ∀ (l : List String) (init : JsMap α), JsMap.lookup init k = some (f k) →
      JsMap.lookup (mapOfList f l init) k = some (f k) := by
  intro l
  induction l with
  | nil => intro _ h; exact h
  | cons q rest ih =>
    intro init h
    show JsMap.lookup (mapOfList f rest _) k = _
    apply ih
    by_cases hq : q = k
    · subst hq; rw [JsMap.lookup_setKV_self]
    · rwa [JsMap.lookup_setKV_ne _ _ hq]

theorem lookup_mapOfList_mem {α : Type} (f : String → α) (k : String) :
    ∀ (l : List String) (init : JsMap α), k ∈ l →
      JsMap.lookup (mapOfList f l init) k = some (f k) := by
  intro l
  induction l with
  | nil => intro _ h; cases h
  | cons q rest ih =>
    intro init hmem
    by_cases hkq : k = q
    · subst hkq
      show JsMap.lookup (mapOfList f rest _) k = _
      exact lookup_mapOfList_of_lookup f k rest _ (JsMap.lookup_setKV_self _ _ _)
    · rcases List.mem_cons.mp hmem with h | h
      · exact absurd h hkq
      · exact ih _ h

theorem keys_nodup_mapOfList {α : Type} (f : String → α) :
    ∀ (l : List String) (init : JsMap α), (JsMap.keys init).Nodup →
      (JsMap.keys (mapOfList f l init)).Nodup := by
  intro l
  induction l with
  | nil => intro _ h; exact h
  | cons q rest ih =>
    intro init h
    exact ih _ (JsMap.keys_nodup_setKV q (f q) h)

theorem optOfMap_getD {α : Type} (m : JsMap α) : (optOfMap m).getD [] = m := by
  unfold optOfMap
  by_cases h : m.isEmpty
  · rw [if_pos h, Option.getD_none, List.isEmpty_iff.mp h]
  · rw [if_neg h, Option.getD_some]

theorem optOfMap_eq_some {α : Type} {m : JsMap α} (h : m ≠ []) :
    optOfMap m = some m := by
  unfold optOfMap
  rw [if_neg]
  simpa [List.isEmpty_iff] using h

/-! ## Merge lemmas -/

theorem mergeField_self {α : Type} (m : Option (JsMap α)) (h : mapWF m) :
    mergeField m m = .ok m := by
  cases m with
  | none => rfl
  | some mm =>
    simp only [mapWF] at h
    simp only [mergeField, Option.isSome_some, Bool.or_self, if_true, mergeMaps]
    by_cases he : mm.isEmpty
    · rw [if_pos he]
    · rw [if_neg he, Option.getD_some, JsMap.unionMaps_self mm h]

theorem mergeStartTime_self (t : Option Int) (h : t ≠ some 0) :
    mergeStartTime t t = t := by
  cases t with
  | none => rfl
  | some v =>
    have hv : v ≠ 0 := fun he => h (by rw [he])
    simp [mergeStartTime, jsNumTruthy, hv, min_self]

theorem mergeStartTime_comm (t1 t2 : Option Int) :
    mergeStartTime t1 t2 = mergeStartTime t2 t1 := by
  cases t1 with
  | none =>
    cases t2 with
    | none => rfl
    | some b => simp [mergeStartTime, jsNumTruthy]
  | some a =>
    cases t2 with
    | none => simp [mergeStartTime, jsNumTruthy]
    | some b =>
      by_cases ha : a = 0
      · by_cases hb : b = 0 <;> simp [mergeStartTime, jsNumTruthy, ha, hb]
      · by_cases hb : b = 0
        · simp [mergeStartTime, jsNumTruthy, ha, hb]
        · simp [mergeStartTime, jsNumTruthy, ha, hb, min_comm]

theorem mergeField_comm {α : Type} (a b : Option (JsMap α))
    (hsh : a.isSome = b.isSome) (hna : mapWF a) (hnb : mapWF b)
    (hdisj : keysDisjoint a b) :
    ∃ m1 m2, mergeField a b = .ok m1 ∧ mergeField b a = .ok m2
      ∧ optMapEquiv m1 m2 := by
  cases a with
  | none =>
    cases b with
    | none => exact ⟨none, none, rfl, rfl, rfl, fun _ => rfl⟩
    | some bm => simp at hsh
  | some am =>
    cases b with
    | none => simp at hsh
    | some bm =>
      simp only [mapWF] at hna hnb
      simp only [mergeField, Option.isSome_some, Bool.or_self, if_true, mergeMaps,
        Option.getD_some]
      by_cases heb : bm.isEmpty
      · have hbnil : bm = [] := List.isEmpty_iff.mp heb
        by_cases hea : am.isEmpty
        · have hanil : am = [] := List.isEmpty_iff.mp hea
          refine ⟨some am, some bm, by rw [if_pos heb], by rw [if_pos hea], rfl, ?_⟩
          intro k
          rw [hanil, hbnil]
        · refine ⟨some am, some (JsMap.unionMaps bm am), by rw [if_pos heb],
            by rw [if_neg hea], rfl, ?_⟩
          intro k
          rw [Option.getD_some, Option.getD_some, JsMap.lookup_unionMaps am hna bm k,
            hbnil]
          cases JsMap.lookup am k <;> rfl
      · by_cases hea : am.isEmpty
        · have hanil : am = [] := List.isEmpty_iff.mp hea
          refine ⟨some (JsMap.unionMaps am bm), some bm, by rw [if_neg heb],
            by rw [if_pos hea], rfl, ?_⟩
          intro k
          rw [Option.getD_some, Option.getD_some, JsMap.lookup_unionMaps bm hnb am k,
            hanil]
          cases h : JsMap.lookup bm k <;> rfl
        · refine ⟨some (JsMap.unionMaps am bm), some (JsMap.unionMaps bm am),
            by rw [if_neg heb], by rw [if_neg hea], rfl, ?_⟩
          intro k
          rw [Option.getD_some, Option.getD_some, JsMap.lookup_unionMaps bm hnb am k,
            JsMap.lookup_unionMaps am hna bm k]
          cases hbk : JsMap.lookup bm k with
          | some v =>
            have hmem : k ∈ JsMap.keys bm := mem_keys_of_lookup_eq_some hbk
            have : k ∉ JsMap.keys am := fun ha => hdisj k (by simpa using ha) (by simpa using hmem)
            rw [JsMap.lookup_eq_none_of_not_mem_keys this]
          | none =>
            cases hak : JsMap.lookup am k with
            | some v => rfl
            | none => rfl

theorem mergeSnapshots_startTime (s1 s2 : Snapshot) (m : Snapshot)
    (h : mergeSnapshots s1 s2 = .ok m) :
    m.startTime = mergeStartTime s1.startTime s2.startTime := by
  unfold mergeSnapshots at h
  repeat' split at h
  all_goals first
    | exact Except.noConfusion h
    | (injection h with h2; rw [← h2])

theorem mergeSnapshots_self (s : Snapshot) (h : snapshotWF s) :
    mergeSnapshots s s = .ok s := by
  obtain ⟨hst, h1, h2, h3, h4, h5, h6⟩ := h
  unfold mergeSnapshots
  rw [mergeField_self _ h1, mergeField_self _ h2, mergeField_self _ h3,
    mergeField_self _ h4, mergeField_self _ h5, mergeField_self _ h6,
    mergeStartTime_self _ hst]

theorem mergeSnapshots_comm_disjoint (a b : Snapshot) (hsh : sameShape a b)
    (ha : snapshotWF a) (hb : snapshotWF b) (hd : disjointSnapshots a b) :
    ∃ m1 m2, mergeSnapshots a b = .ok m1 ∧ mergeSnapshots b a = .ok m2
      ∧ snapshotEquiv m1 m2 := by
  obtain ⟨hs1, hs2, hs3, hs4, hs5, hs6⟩ := hsh
  obtain ⟨-, ha1, ha2, ha3, ha4, ha5, ha6⟩ := ha
  obtain ⟨-, hb1, hb2, hb3, hb4, hb5, hb6⟩ := hb
  obtain ⟨hd1, hd2, hd3, hd4, hd5, hd6⟩ := hd
  obtain ⟨x1, y1, hx1, hy1, he1⟩ := mergeField_comm _ _ hs1 ha1 hb1 hd1
  obtain ⟨x2, y2, hx2, hy2, he2⟩ := mergeField_comm _ _ hs2 ha2 hb2 hd2
  obtain ⟨x3, y3, hx3, hy3, he3⟩ := mergeField_comm _ _ hs3 ha3 hb3 hd3
  obtain ⟨x4, y4, hx4, hy4, he4⟩ := mergeField_comm _ _ hs4 ha4 hb4 hd4
  obtain ⟨x5, y5, hx5, hy5, he5⟩ := mergeField_comm _ _ hs5 ha5 hb5 hd5
  obtain ⟨x6, y6, hx6, hy6, he6⟩ := mergeField_comm _ _ hs6 ha6 hb6 hd6
  refine ⟨⟨mergeStartTime a.startTime b.startTime, x1, x2, x3, x4, x5, x6⟩,
    ⟨mergeStartTime b.startTime a.startTime, y1, y2, y3, y4, y5, y6⟩, ?_, ?_, ?_⟩
  · unfold mergeSnapshots
    rw [hx1, hx2, hx3, hx4, hx5, hx6]
  · unfold mergeSnapshots
    rw [hy1, hy2, hy3, hy4, hy5, hy6]
  · exact ⟨mergeStartTime_comm _ _, he1, he2, he3, he4, he5, he6⟩

theorem checkEntries_false_of_error {α : Type} (get : String → Except Unit (Option α))
    (check : Option α → SnapVal α → Bool) (m : JsMap (SnapVal α)) (p : String)
    (sv : SnapVal α) (hmem : (p, sv) ∈ m) (herr : get p = .error ()) :
    checkEntries get check m = false := by
  unfold checkEntries
  cases hall : m.all fun pv =>
      match get pv.1 with
      | .error _ => false
      | .ok cur => check cur pv.2 with
  | false => rfl
  | true =>
    exfalso
    have := List.all_eq_true.mp hall (p, sv) hmem
    rw [herr] at this
    exact absurd this (by simp)

/-! ## The claims -/

/-- C1 (confirmed): for every entry examined by `checkSnapshotValid` over a
snapshot's `fileTimestamps` map, the source's `checkFile` predicate agrees
pointwise with the specification's description of it: invalid if the
snapshot side is the `"error"` marker; invalid if the current entry exists
and its `safeTime` exceeds the snapshot's `startTime`; invalid if exactly
one of the two values is `None`; invalid if both exist and the snapshot
timestamp is defined and differs from the current one; valid otherwise. -/
theorem c1_checkFile_matches_spec (startTime : Option Int)
    (current : Option FileSystemInfoEntry) (snap : SnapVal FileSystemInfoEntry) :
    checkFile startTime current snap = checkFileSpec startTime current snap := by
  cases snap with
  | err => rfl
  | ok sv =>
    cases hgt : safeTimeCond startTime current <;>
      cases hts : timestampCond current sv <;>
        cases hex : current.isSome != sv.isSome <;>
          simp [checkFile, checkFileSpec, snapTruthy, timestampMismatch, hgt, hts, hex]

/-- C5 (confirmed): `FS_ACCURACY` starts at 2000; after the estimator has
processed any sequence of nonzero mtimes it remains in
`{1, 10, 100, 1000, 2000}`; each step never exceeds the prior value; and
the tightening follows exactly the stated cascade of rules. -/
theorem c5_accuracy_invariant (ms : List Nat) (hnz : ∀ m ∈ ms, m ≠ 0) :
    initFsAccuracy = 2000
    ∧ accMember (accuracyAfter ms)
    ∧ (∀ acc m, applyMtime acc m ≤ acc)
    ∧ (∀ acc m, 1 < acc → m % 2 ≠ 0 → applyMtime acc m = 1)
    ∧ (∀ acc m, ¬(1 < acc ∧ m % 2 ≠ 0) → 10 < acc → m % 20 ≠ 0 →
        applyMtime acc m = 10)
    ∧ (∀ acc m, ¬(1 < acc ∧ m % 2 ≠ 0) → ¬(10 < acc ∧ m % 20 ≠ 0) →
        100 < acc → m % 200 ≠ 0 → applyMtime acc m = 100)
    ∧ (∀ acc m, ¬(1 < acc ∧ m % 2 ≠ 0) → ¬(10 < acc ∧ m % 20 ≠ 0) →
        ¬(100 < acc ∧ m % 200 ≠ 0) → 1000 < acc → m % 2000 ≠ 0 →
        applyMtime acc m = 1000)
    ∧ (∀ acc m, ¬(1 < acc ∧ m % 2 ≠ 0) → ¬(10 < acc ∧ m % 20 ≠ 0) →
        ¬(100 < acc ∧ m % 200 ≠ 0) → ¬(1000 < acc ∧ m % 2000 ≠ 0) →
        applyMtime acc m = acc) := by
  refine ⟨rfl, ?_, ?_, ?_, ?_, ?_, ?_, ?_⟩
  · have step : ∀ (l : List Nat) (acc : Nat), accMember acc →
        accMember (l.foldl applyMtime acc) := by
      intro l
      induction l with
      | nil => intro acc h; exact h
      | cons m rest ih =>
        intro acc h
        apply ih
        unfold applyMtime
        split_ifs <;> first | exact h | simp [accMember]
    exact step ms initFsAccuracy (by right; right; right; right; rfl)
  · intro acc m
    unfold applyMtime
    split_ifs with h1 h2 h3 h4 <;> omega
  · intro acc m h1 h2
    unfold applyMtime
    rw [if_pos ⟨h1, h2⟩]
  · intro acc m hn h1 h2
    unfold applyMtime
    rw [if_neg hn, if_pos ⟨h1, h2⟩]
  · intro acc m hn1 hn2 h1 h2
    unfold applyMtime
    rw [if_neg hn1, if_neg hn2, if_pos ⟨h1, h2⟩]
  · intro acc m hn1 hn2 hn3 h1 h2
    unfold applyMtime
    rw [if_neg hn1, if_neg hn2, if_neg hn3, if_pos ⟨h1, h2⟩]
  · intro acc m hn1 hn2 hn3 hn4
    unfold applyMtime
    rw [if_neg hn1, if_neg hn2, if_neg hn3, if_neg hn4]

theorem c5_accuracy_invariant_witness :
    (∀ m ∈ [(3 : Nat)], m ≠ 0) ∧ accMember (accuracyAfter [3]) :=
  ⟨by decide, (c5_accuracy_invariant [3] (by decide)).2.1⟩

/-- C6 (confirmed): every successful `fs.stat` handled by
`_readFileTimestamp` caches and returns an entry whose `safeTime` is
`mtime + FS_ACCURACY` — the accuracy in effect at read time, i.e. after
this mtime has just been fed to the estimator — when the mtime is
nonzero, and `Infinity` when the mtime is 0/unknown; its `timestamp` is
the raw mtime for non-directories and absent for directories. -/
theorem c6_read_file_timestamp (acc : Nat) (cache : JsMap (Option FileSystemInfoEntry))
    (path : String) (mtime : Nat) (isDir : Bool) :
    ∃ (ts : FileSystemInfoEntry) (acc2 : Nat),
      readFileTimestampStep acc cache path (.stat mtime isDir)
        = (acc2, JsMap.setKV cache path (some ts), .ok (some ts))
      ∧ acc2 = (if mtime ≠ 0 then applyMtime acc mtime else acc)
      ∧ ts.safeTime
          = (if mtime ≠ 0 then XTime.fin ((mtime : Int) + (acc2 : Int)) else XTime.inf)
      ∧ ts.timestamp = (if isDir then none else some (mtime : Int))
      ∧ JsMap.lookup (JsMap.setKV cache path (some ts)) path = some (some ts) := by
  refine ⟨_, _, rfl, rfl, rfl, rfl, JsMap.lookup_setKV_self _ _ _⟩

/-- C10 (confirmed): a snapshot created with `startTime === undefined` —
in particular the one `storeBuildDependencies` requests — carries no
`startTime` field, and `checkFile` under an absent `startTime` can never
invalidate through the `safeTime` freshness test (`x > undefined` is
false), so it coincides with the existence-plus-timestamp-equality
predicate. -/
theorem c10_no_startTime (c : Caches) (o : Oracle) (mps : List String)
    (files directories missing : List String) (opts : SnapOptions)
    (current : Option FileSystemInfoEntry) (snap : SnapVal FileSystemInfoEntry) :
    (createSnapshot c o mps none files directories missing opts).startTime = none
    ∧ (storeBuildDependenciesSnapshot c o mps files directories missing).startTime = none
    ∧ checkFile none current snap = checkFileNoFreshness current snap := by
  refine ⟨rfl, rfl, ?_⟩
  have hsafe : safeTimeCond none current = false := by
    cases current with
    | none => rfl
    | some cc => simp [safeTimeCond, xtimeGtOpt]
  cases snap with
  | err => rfl
  | ok sv => simp [checkFile, checkFileNoFreshness, hsafe]

/-- C3 (code_bug): the claim says that whenever at least one snapshot has
a given map, the merge carries that map's union with the second snapshot
winning.  The code instead throws: with only `snapshot1` carrying
`fileTimestamps`, `mergeMaps(a, undefined)` dereferences `b.size` and
raises a TypeError, while the mirrored call succeeds. -/
theorem c3_mergeSnapshots_crash :
    mergeSnapshots
      ⟨none, some [("/a", SnapVal.ok (none : Option FileSystemInfoEntry))],
        none, none, none, none, none⟩
      ⟨none, none, none, none, none, none, none⟩ = .error ()
    ∧ mergeSnapshots
      ⟨none, none, none, none, none, none, none⟩
      ⟨none, some [("/a", SnapVal.ok (none : Option FileSystemInfoEntry))],
        none, none, none, none, none⟩
      = .ok ⟨none, some [("/a", SnapVal.ok (none : Option FileSystemInfoEntry))],
        none, none, none, none, none⟩ :=
  ⟨rfl, rfl⟩

/-- C4 (confirmed): in timestamp mode, `createSnapshot` records the
`"error"` marker in `contextTimestamps` for every non-managed input
directory (`getContextTimestamp` is not implemented yet), and any
snapshot whose `contextTimestamps` map is non-empty is judged invalid by
`checkSnapshotValid`. -/
theorem c4_context_timestamps_error (c : Caches) (o : Oracle) (mps : List String)
    (startTime : Option Int) (files directories missing : List String) (d : String)
    (hd : d ∈ directories) (hman : managedOf mps d = none) :
    (∃ m, (createSnapshot c o mps startTime files directories missing ⟨false⟩).contextTimestamps
        = some m ∧ JsMap.lookup m d = some .err)
    ∧ (∀ (c2 : Caches) (o2 : Oracle) (s2 : Snapshot)
        (m2 : JsMap (SnapVal FileSystemInfoEntry)),
        s2.contextTimestamps = some m2 → m2 ≠ [] →
        checkSnapshotValid c2 o2 s2 = false) := by
  constructor
  · have hlook : JsMap.lookup
        (snapCollect mps (fun _ => (SnapVal.err : SnapVal FileSystemInfoEntry)) directories []) d
        = some SnapVal.err :=
      lookup_snapCollect_mem mps _ d hman directories [] hd
    have hne : snapCollect mps (fun _ => (SnapVal.err : SnapVal FileSystemInfoEntry)) directories []
        ≠ [] := by
      intro h0
      rw [h0] at hlook
      exact Option.noConfusion hlook
    refine ⟨snapCollect mps (fun _ => SnapVal.err) directories [], ?_, hlook⟩
    show optOfMap (if (SnapOptions.mk false).hash = true then []
        else snapCollect mps (fun _ => (SnapVal.err : SnapVal FileSystemInfoEntry)) directories [])
        = _
    rw [if_neg (by simp), optOfMap_eq_some hne]
  · intro c2 o2 s2 m2 hm2 hne
    have hie : (s2.contextTimestamps.getD []).isEmpty = false := by
      rw [hm2]
      simpa [List.isEmpty_iff] using hne
    simp [checkSnapshotValid, hie]

theorem c4_context_timestamps_error_witness :
    ("/d" ∈ ["/d"]) ∧ managedOf [] "/d" = none
    ∧ ((∃ m, (createSnapshot ⟨[], [], [], []⟩
          ⟨fun _ => .ok none, fun _ => .ok none, fun _ => .ok none, fun _ => .ok ""⟩
          [] none [] ["/d"] [] ⟨false⟩).contextTimestamps
          = some m ∧ JsMap.lookup m "/d" = some .err)
      ∧ (∀ (c2 : Caches) (o2 : Oracle) (s2 : Snapshot)
          (m2 : JsMap (SnapVal FileSystemInfoEntry)),
          s2.contextTimestamps = some m2 → m2 ≠ [] →
          checkSnapshotValid c2 o2 s2 = false)) :=
  ⟨by decide, rfl,
    c4_context_timestamps_error ⟨[], [], [], []⟩
      ⟨fun _ => .ok none, fun _ => .ok none, fun _ => .ok none, fun _ => .ok ""⟩
      [] none [] ["/d"] [] "/d" (by decide) rfl⟩

/-- C2 (corrected): a file path beneath a managed root is excluded from
`fileTimestamps` and `fileHashes` and folded into a single
`managedItemInfo` entry — but the key is `getManagedItem`'s result, the
path up to the *second* boundary separator after the managed root (`@`
raising the required count by one), which for the claim's example inputs
is `/node_modules/@scope/pkg/lib`, one level below the package directory
`/node_modules/@scope/pkg` the claim names. -/
theorem c2_managed_fold (c : Caches) (o : Oracle) (mps : List String)
    (startTime : Option Int) (files directories missing : List String)
    (opts : SnapOptions) (path item : String)
    (hmem : path ∈ files) (hman : managedOf mps path = some item) :
    JsMap.lookup
      ((createSnapshot c o mps startTime files directories missing opts).fileTimestamps.getD [])
      path = none
    ∧ JsMap.lookup
      ((createSnapshot c o mps startTime files directories missing opts).fileHashes.getD [])
      path = none
    ∧ JsMap.lookup
      ((createSnapshot c o mps startTime files directories missing opts).managedItemInfo.getD [])
      item = some (snapManagedEntry c o item)
    ∧ (JsMap.keys
      ((createSnapshot c o mps startTime files directories missing opts).managedItemInfo.getD [])).Nodup := by
  have hsome : (managedOf mps path).isSome := by rw [hman]; rfl
  refine ⟨?_, ?_, ?_, ?_⟩
  · show JsMap.lookup ((optOfMap (if opts.hash = true then []
        else snapCollect mps (snapFileTsEntry c o) files [])).getD []) path = none
    rw [optOfMap_getD]
    by_cases hh : opts.hash = true
    · rw [if_pos hh]; rfl
    · rw [if_neg hh, lookup_snapCollect_managed mps _ path hsome files []]; rfl
  · show JsMap.lookup ((optOfMap (if opts.hash = true
        then snapCollect mps (snapFileHashEntry c o) files [] else [])).getD []) path = none
    rw [optOfMap_getD]
    by_cases hh : opts.hash = true
    · rw [if_pos hh, lookup_snapCollect_managed mps _ path hsome files []]; rfl
    · rw [if_neg hh]; rfl
  · show JsMap.lookup ((optOfMap (mapOfList (snapManagedEntry c o)
        (managedItemsOf mps (files ++ directories ++ missing)) [])).getD []) item = _
    rw [optOfMap_getD]
    exact lookup_mapOfList_mem _ item _ []
      (mem_managedCollect mps path item hman _ [] (by simp [hmem]))
  · show (JsMap.keys ((optOfMap (mapOfList (snapManagedEntry c o)
        (managedItemsOf mps (files ++ directories ++ missing)) [])).getD [])).Nodup
    rw [optOfMap_getD]
    exact keys_nodup_mapOfList _ _ [] List.nodup_nil

theorem c2_managed_fold_witness :
    ("/node_modules/@scope/pkg/lib/x.js"
        ∈ ["/node_modules/@scope/pkg/lib/x.js", "/node_modules/@scope/pkg/lib/y.js"])
    ∧ managedOf [withSlash "/node_modules"] "/node_modules/@scope/pkg/lib/x.js"
        = some "/node_modules/@scope/pkg/lib"
    ∧ (JsMap.lookup
        ((createSnapshot ⟨[], [], [], []⟩
          ⟨fun _ => .ok none, fun _ => .ok none, fun _ => .ok none,
            fun _ => .ok "@scope/pkg@1.2.3"⟩
          [withSlash "/node_modules"] none
          ["/node_modules/@scope/pkg/lib/x.js", "/node_modules/@scope/pkg/lib/y.js"]
          [] [] ⟨true⟩).fileTimestamps.getD [])
        "/node_modules/@scope/pkg/lib/x.js" = none
      ∧ JsMap.lookup
        ((createSnapshot ⟨[], [], [], []⟩
          ⟨fun _ => .ok none, fun _ => .ok none, fun _ => .ok none,
            fun _ => .ok "@scope/pkg@1.2.3"⟩
          [withSlash "/node_modules"] none
          ["/node_modules/@scope/pkg/lib/x.js", "/node_modules/@scope/pkg/lib/y.js"]
          [] [] ⟨true⟩).fileHashes.getD [])
        "/node_modules/@scope/pkg/lib/x.js" = none
      ∧ JsMap.lookup
        ((createSnapshot ⟨[], [], [], []⟩
          ⟨fun _ => .ok none, fun _ => .ok none, fun _ => .ok none,
            fun _ => .ok "@scope/pkg@1.2.3"⟩
          [withSlash "/node_modules"] none
          ["/node_modules/@scope/pkg/lib/x.js", "/node_modules/@scope/pkg/lib/y.js"]
          [] [] ⟨true⟩).managedItemInfo.getD [])
        "/node_modules/@scope/pkg/lib"
        = some (snapManagedEntry ⟨[], [], [], []⟩
            ⟨fun _ => .ok none, fun _ => .ok none, fun _ => .ok none,
              fun _ => .ok "@scope/pkg@1.2.3"⟩
            "/node_modules/@scope/pkg/lib")
      ∧ (JsMap.keys
        ((createSnapshot ⟨[], [], [], []⟩
          ⟨fun _ => .ok none, fun _ => .ok none, fun _ => .ok none,
            fun _ => .ok "@scope/pkg@1.2.3"⟩
          [withSlash "/node_modules"] none
          ["/node_modules/@scope/pkg/lib/x.js", "/node_modules/@scope/pkg/lib/y.js"]
          [] [] ⟨true⟩).managedItemInfo.getD [])).Nodup) :=
  ⟨by decide, by decide,
    c2_managed_fold ⟨[], [], [], []⟩
      ⟨fun _ => .ok none, fun _ => .ok none, fun _ => .ok none,
        fun _ => .ok "@scope/pkg@1.2.3"⟩
      [withSlash "/node_modules"] none
      ["/node_modules/@scope/pkg/lib/x.js", "/node_modules/@scope/pkg/lib/y.js"]
      [] [] ⟨true⟩ "/node_modules/@scope/pkg/lib/x.js" "/node_modules/@scope/pkg/lib"
      (by decide) (by decide)⟩

/-- C2, the claim as stated is false: on the claim's own example the
single `managedItemInfo` key is `/node_modules/@scope/pkg/lib`, and there
is no entry at the claimed key `/node_modules/@scope/pkg`. -/
theorem c2_managed_fold_counterexample :
    getManagedItem (withSlash "/node_modules") "/node_modules/@scope/pkg/lib/x.js"
      = "/node_modules/@scope/pkg/lib"
    ∧ JsMap.lookup
      ((createSnapshot ⟨[], [], [], []⟩
        ⟨fun _ => .ok none, fun _ => .ok none, fun _ => .ok none,
          fun _ => .ok "@scope/pkg@1.2.3"⟩
        [withSlash "/node_modules"] none
        ["/node_modules/@scope/pkg/lib/x.js", "/node_modules/@scope/pkg/lib/y.js"]
        [] [] ⟨true⟩).managedItemInfo.getD [])
      "/node_modules/@scope/pkg" = none := by
  constructor
  · decide
  · decide

/-- C7 (corrected): `mergeSnapshots` is idempotent on snapshots
representable as JS values; the merged `startTime` is the minimum when
both sides carry a (nonzero) one and the carrying side's value when only
one does; and it commutes — up to per-key lookup — only when every map is
present on both sides or on neither (with disjoint keys).  When exactly
one side carries a map, the call in one direction throws (see the
counterexample), so commutativity as claimed fails. -/
theorem c7_merge_algebra :
    (∀ s : Snapshot, snapshotWF s → mergeSnapshots s s = .ok s)
    ∧ (∀ a b : Snapshot, sameShape a b → snapshotWF a → snapshotWF b →
        disjointSnapshots a b →
        ∃ m1 m2, mergeSnapshots a b = .ok m1 ∧ mergeSnapshots b a = .ok m2
          ∧ snapshotEquiv m1 m2)
    ∧ (∀ s1 s2 m, mergeSnapshots s1 s2 = .ok m →
        m.startTime = mergeStartTime s1.startTime s2.startTime)
    ∧ (∀ t1 t2 : Int, t1 ≠ 0 → t2 ≠ 0 →
        mergeStartTime (some t1) (some t2) = some (min t1 t2))
    ∧ (∀ t : Int, t ≠ 0 →
        mergeStartTime (some t) none = some t
        ∧ mergeStartTime none (some t) = some t) :=
  ⟨mergeSnapshots_self, mergeSnapshots_comm_disjoint, mergeSnapshots_startTime,
    fun t1 t2 h1 h2 => by simp [mergeStartTime, jsNumTruthy, h1, h2],
    fun t h => by simp [mergeStartTime, jsNumTruthy, h]⟩

theorem c7_merge_algebra_witness :
    snapshotWF ⟨some 5, some [("/a", SnapVal.ok (none : Option FileSystemInfoEntry))],
      none, none, none, none, none⟩
    ∧ mergeSnapshots
        ⟨some 5, some [("/a", SnapVal.ok (none : Option FileSystemInfoEntry))],
          none, none, none, none, none⟩
        ⟨some 5, some [("/a", SnapVal.ok (none : Option FileSystemInfoEntry))],
          none, none, none, none, none⟩
      = .ok ⟨some 5, some [("/a", SnapVal.ok (none : Option FileSystemInfoEntry))],
          none, none, none, none, none⟩ :=
  ⟨by decide,
    c7_merge_algebra.1
      ⟨some 5, some [("/a", SnapVal.ok (none : Option FileSystemInfoEntry))],
        none, none, none, none, none⟩ (by decide)⟩

/-- C7, the commutativity part of the claim as stated is false: two
snapshots with disjoint key sets (one carries `fileTimestamps`, the other
nothing) merge fine in one direction but throw in the other. -/
theorem c7_merge_algebra_counterexample :
    mergeSnapshots
      ⟨none, some [("/b", SnapVal.ok (none : Option FileSystemInfoEntry))],
        none, none, none, none, none⟩
      ⟨none, none, none, none, none, none, none⟩ = .error ()
    ∧ mergeSnapshots
      ⟨none, none, none, none, none, none, none⟩
      ⟨none, some [("/b", SnapVal.ok (none : Option FileSystemInfoEntry))],
        none, none, none, none, none⟩
      = .ok ⟨none, some [("/b", SnapVal.ok (none : Option FileSystemInfoEntry))],
        none, none, none, none, none⟩ :=
  ⟨rfl, rfl⟩

/-- C8 (confirmed): `checkSnapshotValid` never reports an error — the
model's callback value is always a boolean because every failing probe is
routed through `invalid()`; a read error raised by any dispatched probe
(file timestamp, file hash, context hash, or missing-path timestamp)
makes the result `false`, and a failed read leaves the corresponding
cache untouched (nothing is memoized). -/
theorem c8_validation_errors (c : Caches) (o : Oracle) (s : Snapshot) :
    (∀ p sv, (p, sv) ∈ s.fileTimestamps.getD [] → currentFileTs c o p = .error () →
      checkSnapshotValid c o s = false)
    ∧ (∀ p sv, (p, sv) ∈ s.fileHashes.getD [] → currentFileHash c o p = .error () →
      checkSnapshotValid c o s = false)
    ∧ (∀ p sv, (p, sv) ∈ s.contextHashes.getD [] → currentContextHash c o p = .error () →
      checkSnapshotValid c o s = false)
    ∧ (∀ p sv, (p, sv) ∈ s.missingTimestamps.getD [] → currentFileTs c o p = .error () →
      checkSnapshotValid c o s = false)
    ∧ (∀ (acc : Nat) (cache : JsMap (Option FileSystemInfoEntry)) (path : String),
      readFileTimestampStep acc cache path .failure = (acc, cache, .error ()))
    ∧ (∀ (cache : JsMap (Option String)) (path : String),
      readFileHashStep cache path .failure = (cache, .error ())) := by
  refine ⟨?_, ?_, ?_, ?_, fun _ _ _ => rfl, fun _ _ => rfl⟩
  · intro p sv hmem herr
    have hf := checkEntries_false_of_error (currentFileTs c o)
      (checkFile s.startTime) _ p sv hmem herr
    simp [checkSnapshotValid, hf]
  · intro p sv hmem herr
    have hf := checkEntries_false_of_error (currentFileHash c o)
      checkHash _ p sv hmem herr
    simp [checkSnapshotValid, hf]
  · intro p sv hmem herr
    have hf := checkEntries_false_of_error (currentContextHash c o)
      checkHash _ p sv hmem herr
    simp [checkSnapshotValid, hf]
  · intro p sv hmem herr
    have hf := checkEntries_false_of_error (currentFileTs c o)
      checkExistance _ p sv hmem herr
    simp [checkSnapshotValid, hf]

theorem c8_validation_errors_witness :
    (("/a", SnapVal.ok (none : Option FileSystemInfoEntry))
        ∈ (some [("/a", SnapVal.ok (none : Option FileSystemInfoEntry))]
            : Option (JsMap (SnapVal FileSystemInfoEntry))).getD [])
    ∧ currentFileTs ⟨[], [], [], []⟩
        ⟨fun _ => .error (), fun _ => .ok none, fun _ => .ok none, fun _ => .ok ""⟩
        "/a" = .error ()
    ∧ checkSnapshotValid ⟨[], [], [], []⟩
        ⟨fun _ => .error (), fun _ => .ok none, fun _ => .ok none, fun _ => .ok ""⟩
        ⟨none, some [("/a", SnapVal.ok (none : Option FileSystemInfoEntry))],
          none, none, none, none, none⟩ = false :=
  ⟨by decide, rfl,
    (c8_validation_errors ⟨[], [], [], []⟩
      ⟨fun _ => .error (), fun _ => .ok none, fun _ => .ok none, fun _ => .ok ""⟩
      ⟨none, some [("/a", SnapVal.ok (none : Option FileSystemInfoEntry))],
        none, none, none, none, none⟩).1
      "/a" (SnapVal.ok none) (by decide) rfl⟩

/-- C9 (confirmed): unpacking an entry whose measured size straddles
`MAX_INLINE_SIZE` relative to its stored tier marks the pack `invalid`;
in the lazy-to-inline case the realized data additionally replaces the
loader in the `content` map. -/
theorem c9_unpack_migration (p : Pack) (identifier : String) (entry : PackEntryData)
    (d : PackData) (hdata : entry.data = some d) :
    (MAX_INLINE_SIZE < entry.size →
      (unpackEntry p identifier entry true).1.invalid = true)
    ∧ (entry.size ≤ MAX_INLINE_SIZE →
      (unpackEntry p identifier entry false).1.invalid = true
      ∧ JsMap.lookup (unpackEntry p identifier entry false).1.content identifier
          = some (.plain d)
      ∧ (unpackEntry p identifier entry false).2 = some d) := by
  constructor
  · intro hgt
    simp [unpackEntry, hdata, hgt]
  · intro hle
    refine ⟨?_, ?_, ?_⟩ <;>
      simp [unpackEntry, hdata, hle, JsMap.lookup_setKV_self]

theorem c9_unpack_migration_witness :
    (⟨some 7, 25000⟩ : PackEntryData).data = some 7
    ∧ MAX_INLINE_SIZE < (⟨some 7, 25000⟩ : PackEntryData).size
    ∧ (unpackEntry ⟨[], [], [], false⟩ "id" ⟨some 7, 25000⟩ true).1.invalid = true :=
  ⟨rfl, by decide,
    (c9_unpack_migration ⟨[], [], [], false⟩ "id" ⟨some 7, 25000⟩ 7 rfl).1 (by decide)⟩

end FSI
